import Mathlib

/-!
Verification of the opencode-lark-bridge core (src/src/bridge.cjs and the
embedded OpenCodeClient from opencode.cjs) against its natural-language
specification.  The JavaScript module state is embedded as an explicit
`BridgeState` record; each mutation path of the source becomes a pure Lean
function on that record.  HTTP and subprocess outcomes are abstracted as
environment records whose fields give the result of each external call.
JavaScript truthiness on optional strings is modelled explicitly.
-/

namespace LarkBridge

/-- The STATUS constants of bridge.cjs. -/
inductive Status where
  | idle
  | connecting
  | connected
  | error
deriving DecidableEq, Repr

/-- The `direction` tag stored on queued messages
(the literal strings in the source). -/
inductive Direction where
  | feishuToOpencode
  | opencodeToFeishu
deriving DecidableEq, Repr

/-- A retry-queue entry as built by the enqueue call sites of bridge.cjs.
Fields absent at a call site (JS `undefined`) are `none`. -/
structure PendingMessage where
  direction : Direction
  chatId : Option String
  text : String
  sessionId : Option String
  userId : Option String
  messageId : Option String
  retryCount : Nat
deriving DecidableEq, Repr

/-- JavaScript truthiness of an optional string value:
`undefined`, `null` and the empty string are falsy. -/
def truthy : Option String → Bool
  | none => false
  | some s => s != ""

/-- JavaScript falsiness of an optional string value. -/
def jsFalsyStr (o : Option String) : Bool :=
  !(truthy o)

/-- `MAX_QUEUE_SIZE` from bridge.cjs. -/
def MAX_QUEUE_SIZE : Nat := 100

/-- `MAX_STORED_MESSAGE_IDS` from bridge.cjs. -/
def MAX_STORED_MESSAGE_IDS : Nat := 1000

/-- `MAX_STORED_OPENCODE_MESSAGE_IDS` from bridge.cjs. -/
def MAX_STORED_OPENCODE_MESSAGE_IDS : Nat := 1000

/-- `enqueue` from bridge.cjs: if the queue already holds `MAX_QUEUE_SIZE`
entries, `shift()` the oldest, then `push` the new entry. -/
def enqueue (m : PendingMessage) (q : List PendingMessage) : List PendingMessage :=
  if MAX_QUEUE_SIZE ≤ q.length then q.tail ++ [m] else q ++ [m]

/-- `dequeue` from bridge.cjs: `null` on an empty queue, else `shift()`. -/
def dequeue (q : List PendingMessage) : Option PendingMessage × List PendingMessage :=
  match q with
  | [] => (none, [])
  | m :: rest => (some m, rest)

/-- JS `Map.has` on the chat-to-session map (insertion-ordered assoc list). -/
def mapHas (m : List (String × String)) (k : String) : Bool :=
  m.any (fun p => p.1 == k)

/-- JS `Map.get` on the chat-to-session map. -/
def mapGet (m : List (String × String)) (k : String) : Option String :=
  (m.find? (fun p => p.1 == k)).map Prod.snd

/-- JS `Map.set` on the chat-to-session map: overwrite in place if present,
append otherwise (JS Maps preserve insertion order). -/
def mapSet (m : List (String × String)) (k v : String) : List (String × String) :=
  if mapHas m k then m.map (fun p => if p.1 == k then (k, v) else p)
  else m ++ [(k, v)]

/-- `isDuplicateMessage` from bridge.cjs, acting on the insertion-ordered
`processedMessageIds` set: falsy ids are never duplicates and leave the set
untouched; a fresh id is added, evicting the oldest entry past the cap.
Returns the boolean result together with the updated set. -/
def isDuplicateMessage (messageId : Option String) (processed : List String) :
    Bool × List String :=
  if !(truthy messageId) then (false, processed)
  else
    let mid := messageId.getD ""
    if mid ∈ processed then (true, processed)
    else
      let grown := processed ++ [mid]
      (false, if MAX_STORED_MESSAGE_IDS < grown.length then grown.tail else grown)

/-- A single text part of an OpenCode payload (`{type, text}`). -/
structure OCPart where
  type : String
  text : Option String
deriving DecidableEq, Repr

/-- An OpenCode payload as accepted by `handleOpenCodeToFeishu`: either a
plain string or an object whose `content`, `text`, `parts` and `sessionId`
fields may each be absent. -/
inductive OCMessage where
  | str (s : String)
  | obj (content : Option String) (text : Option String)
        (parts : Option (List OCPart)) (sessionId : Option String)
deriving DecidableEq, Repr

/-- JS `array.join('')`: concatenation of a list of strings. -/
def joinAll : List String → String
  | [] => ""
  | s :: rest => s ++ joinAll rest

/-- The parts-array extraction of bridge.cjs: keep parts whose `type` is
`'text'` and whose `text` is truthy, then join their texts. -/
def partsText (ps : List OCPart) : String :=
  joinAll ((ps.filter (fun p => p.type == "text" && truthy p.text)).map
    (fun p => p.text.getD ""))

/-- The text-extraction ladder of `handleOpenCodeToFeishu`: string payloads
yield themselves; otherwise a truthy `content`, else a truthy `text`, else a
`parts` array; anything else yields the empty string. -/
def extractText : OCMessage → String
  | OCMessage.str s => s
  | OCMessage.obj content text parts _ =>
    if truthy content then content.getD ""
    else if truthy text then text.getD ""
    else
      match parts with
      | some ps => partsText ps
      | none => ""

/-- `sessionIdFromMsg` of `handleOpenCodeToFeishu`: only the truthy-`content`
branch of the ladder copies the payload's `sessionId`. -/
def sessionIdFromMsg : OCMessage → Option String
  | OCMessage.str _ => none
  | OCMessage.obj content _ _ sid => if truthy content then sid else none

/-- The fingerprint key of `isDuplicateOpenCodeMessage`: the same truthiness
ladder as the extraction, but producing a tagged key, or `null` if no branch
matches. -/
def messageKey : OCMessage → Option String
  | OCMessage.str s => some ("str:" ++ s)
  | OCMessage.obj content text parts _ =>
    if truthy content then some ("content:" ++ content.getD "")
    else if truthy text then some ("text:" ++ text.getD "")
    else
      match parts with
      | some ps => some ("parts:" ++ partsText ps)
      | none => none

/-- `isDuplicateOpenCodeMessage` from bridge.cjs on the insertion-ordered
`processedOpenCodeMessageIds` set. -/
def isDuplicateOpenCodeMessage (msg : OCMessage) (keys : List String) :
    Bool × List String :=
  match messageKey msg with
  | none => (false, keys)
  | some k =>
    if k ∈ keys then (true, keys)
    else
      let grown := keys ++ [k]
      (false, if MAX_STORED_OPENCODE_MESSAGE_IDS < grown.length then grown.tail else grown)

/-- JavaScript strict equality between a map value (a session-id string) and
a nullable session identifier. -/
def jsStrictEqOptStr (sid : String) : Option String → Bool
  | some s => sid == s
  | none => false

/-- The whole mutable module state of bridge.cjs gathered into one record,
together with observation lists recording every `opencode.sendMessage` and
`feishu.sendMessage` invocation and counters for the leaf `stop()` calls. -/
structure BridgeState where
  status : Status
  errorMessage : Option String
  feishuConnected : Bool
  opencodeConnected : Bool
  processedMessageIds : List String
  processedOpenCodeKeys : List String
  sessions : List (String × String)
  moduleSessionId : Option String
  queue : List PendingMessage
  ocSends : List (String × String)
  feishuSends : List (Option String × String)
  feishuStopCount : Nat
  opencodeStopCount : Nat
deriving DecidableEq, Repr

/-- A fresh module state: all variables as initialised at the top of
bridge.cjs. -/
def st0 : BridgeState :=
  ⟨Status.idle, none, false, false, [], [], [], none, [], [], [], 0, 0⟩

/-- An inbound Feishu message as destructured by `handleFeishuToOpenCode`. -/
structure FeishuMessage where
  chatId : String
  text : String
  userId : Option String
  messageId : Option String
  isMentioned : Bool
deriving DecidableEq, Repr

/-- Outcomes of the external calls made by `handleFeishuToOpenCode`. -/
structure InboundEnv where
  createSession : Except String String
  ocSendOk : Bool

/-- The `opencode.sendMessage` attempt of `handleFeishuToOpenCode`: record the
invocation, and on failure enqueue the message with a zero retry counter. -/
def sendToSession (env : InboundEnv) (msg : FeishuMessage) (sid : String)
    (st : BridgeState) : BridgeState :=
  let st1 := { st with ocSends := st.ocSends ++ [(sid, msg.text)] }
  let retryMsg : PendingMessage :=
    ⟨Direction.feishuToOpencode, some msg.chatId, msg.text, none,
      msg.userId, msg.messageId, 0⟩
  if env.ocSendOk then st1
  else { st1 with queue := enqueue retryMsg st1.queue }

/-- The session-resolution body of `handleFeishuToOpenCode`: lazily create a
session for the chat, enqueueing the message on creation failure, then send. -/
def handleFeishuBody (env : InboundEnv) (msg : FeishuMessage)
    (st : BridgeState) : BridgeState :=
  if mapHas st.sessions msg.chatId then
    match mapGet st.sessions msg.chatId with
    | some sid => sendToSession env msg sid st
    | none => st
  else
    let retryMsg : PendingMessage :=
      ⟨Direction.feishuToOpencode, some msg.chatId, msg.text, none,
        msg.userId, msg.messageId, 0⟩
    match env.createSession with
    | Except.error _ =>
      { st with queue := enqueue retryMsg st.queue }
    | Except.ok newSessionId =>
      let st1 := { st with sessions := mapSet st.sessions msg.chatId newSessionId }
      match mapGet st1.sessions msg.chatId with
      | some sid => sendToSession env msg sid st1
      | none => st1

/-- `handleFeishuToOpenCode` from bridge.cjs: a truthy, already-seen message
identifier is dropped before anything else happens. -/
def handleFeishuToOpenCode (env : InboundEnv) (msg : FeishuMessage)
    (st : BridgeState) : BridgeState :=
  if truthy msg.messageId then
    let dup := isDuplicateMessage msg.messageId st.processedMessageIds
    let st1 := { st with processedMessageIds := dup.2 }
    if dup.1 then st1 else handleFeishuBody env msg st1
  else
    handleFeishuBody env msg st

/-- `handleOpenCodeToFeishu` from bridge.cjs: outbound dedup by content
fingerprint, text extraction, destination resolution with last-mapping
fallback, and enqueueing when no destination resolves or the send fails. -/
def handleOpenCodeToFeishu (feishuSendOk : Bool) (msg : OCMessage)
    (st : BridgeState) : BridgeState :=
  let dup := isDuplicateOpenCodeMessage msg st.processedOpenCodeKeys
  let st1 := { st with processedOpenCodeKeys := dup.2 }
  if dup.1 then st1
  else
    let text := extractText msg
    if text == "" then st1
    else
      let sidMsg := sessionIdFromMsg msg
      let target0 := (st1.sessions.find? (fun p =>
        jsStrictEqOptStr p.2 sidMsg || jsStrictEqOptStr p.2 st1.moduleSessionId)).map Prod.fst
      let target1 :=
        if jsFalsyStr target0 && !st1.sessions.isEmpty then
          (st1.sessions.getLast?).map Prod.fst
        else target0
      if jsFalsyStr target1 then
        let orphanMsg : PendingMessage :=
          ⟨Direction.opencodeToFeishu, none, text, sidMsg, none, none, 0⟩
        { st1 with queue := enqueue orphanMsg st1.queue }
      else
        let tgt := target1.getD ""
        let st2 := { st1 with feishuSends := st1.feishuSends ++ [(some tgt, text)] }
        let retryMsg : PendingMessage :=
          ⟨Direction.opencodeToFeishu, some tgt, text, none, none, none, 0⟩
        if feishuSendOk then st2
        else { st2 with queue := enqueue retryMsg st2.queue }

/-- Outcomes of the send attempts performed while draining the retry queue:
each oracle decides the attempted message (whose retry counter distinguishes
successive attempts of the same entry). -/
structure DrainEnv where
  ocSendOk : PendingMessage → Bool
  feishuSendOk : PendingMessage → Bool

/-- The session lookup `chatIdToSessionMap.get(message.chatId)` done by
`processQueue` for `feishu→opencode` entries. -/
def lookupSessionFor (st : BridgeState) (m : PendingMessage) : Option String :=
  match m.chatId with
  | none => none
  | some c => mapGet st.sessions c

/-- One iteration of the `processQueue` while-loop on a non-empty queue
whose head is `m` and tail `rest`: skip sessionless inbound entries, record
the send attempt, and on failure either reinsert at the front with an
incremented retry counter (when below the ceiling of 3) or drop the entry. -/
def drainNext (env : DrainEnv) (st : BridgeState) (m : PendingMessage)
    (rest : List PendingMessage) : BridgeState :=
  match m.direction with
  | Direction.feishuToOpencode =>
    match lookupSessionFor st m with
    | none => { st with queue := rest }
    | some sid =>
      let st1 := { st with queue := rest, ocSends := st.ocSends ++ [(sid, m.text)] }
      if env.ocSendOk m then st1
      else if m.retryCount < 3 then
        { st1 with queue := { m with retryCount := m.retryCount + 1 } :: rest }
      else st1
  | Direction.opencodeToFeishu =>
    let st1 := { st with queue := rest, feishuSends := st.feishuSends ++ [(m.chatId, m.text)] }
    if env.feishuSendOk m then st1
    else if m.retryCount < 3 then
      { st1 with queue := { m with retryCount := m.retryCount + 1 } :: rest }
    else st1

/-- Fuel needed to drain one entry: a failing entry below the retry ceiling
is reattempted with counters up to 3 before being dropped. -/
def entryFuel (m : PendingMessage) : Nat := 5 - Nat.min m.retryCount 4

/-- An upper bound on the number of while-loop iterations a drain of `q`
can take. -/
def queueMeasure (q : List PendingMessage) : Nat :=
  (q.map entryFuel).sum

/-- The `processQueue` while-loop, with explicit fuel (each iteration
consumes one unit; `queueMeasure` units always suffice). -/
def drainFuel (env : DrainEnv) : Nat → BridgeState → BridgeState
  | 0, st => st
  | fuel + 1, st =>
    match st.queue with
    | [] => st
    | m :: rest => drainFuel env fuel (drainNext env st m rest)

/-- `processQueue` from bridge.cjs: a no-op unless the bridge status is
`connected`; otherwise drain the queue to exhaustion. -/
def processQueue (env : DrainEnv) (st : BridgeState) : BridgeState :=
  if st.status = Status.connected then drainFuel env (queueMeasure st.queue) st
  else st

theorem entryFuel_pos (m : PendingMessage) : 1 ≤ entryFuel m := by
  have h : Nat.min m.retryCount 4 ≤ 4 := Nat.min_le_right _ _
  simp only [entryFuel]
  omega

theorem queueMeasure_cons (m : PendingMessage) (rest : List PendingMessage) :
    queueMeasure (m :: rest) = entryFuel m + queueMeasure rest := by
  simp [queueMeasure]

theorem queueMeasure_eq_zero (q : List PendingMessage)
    (h : queueMeasure q = 0) : q = [] := by
  cases q with
  | nil => rfl
  | cons m rest =>
    have h1 := entryFuel_pos m
    rw [queueMeasure_cons] at h
    omega

theorem drainNext_measure (env : DrainEnv) (st : BridgeState)
    (m : PendingMessage) (rest : List PendingMessage) (hq : st.queue = m :: rest) :
    queueMeasure (drainNext env st m rest).queue + 1 ≤ queueMeasure st.queue := by
  have hmin : Nat.min m.retryCount 4 ≤ 4 := Nat.min_le_right _ _
  rw [hq, queueMeasure_cons]
  unfold drainNext
  cases m.direction with
  | feishuToOpencode =>
    cases hsid : lookupSessionFor st m with
    | none =>
      simp [entryFuel]
      omega
    | some sid =>
      by_cases hok : env.ocSendOk m
      · simp [hok, entryFuel]
        omega
      · by_cases hrc : m.retryCount < 3
        · have h1 : Nat.min m.retryCount 4 = m.retryCount := Nat.min_eq_left (by omega)
          have h2 : Nat.min (m.retryCount + 1) 4 = m.retryCount + 1 :=
            Nat.min_eq_left (by omega)
          simp [hok, hrc, queueMeasure_cons, entryFuel]
          omega
        · simp [hok, hrc, entryFuel]
          omega
  | opencodeToFeishu =>
    by_cases hok : env.feishuSendOk m
    · simp [hok, entryFuel]
      omega
    · by_cases hrc : m.retryCount < 3
      · have h1 : Nat.min m.retryCount 4 = m.retryCount := Nat.min_eq_left (by omega)
        have h2 : Nat.min (m.retryCount + 1) 4 = m.retryCount + 1 :=
          Nat.min_eq_left (by omega)
        simp [hok, hrc, queueMeasure_cons, entryFuel]
        omega
      · simp [hok, hrc, entryFuel]
        omega

theorem drainFuel_succ (env : DrainEnv) :
    ∀ (f : Nat) (st : BridgeState), queueMeasure st.queue ≤ f →
      drainFuel env (f + 1) st = drainFuel env f st := by
  intro f
  induction f with
  | zero =>
    intro st h
    have : st.queue = [] := queueMeasure_eq_zero _ (Nat.le_zero.mp h)
    simp [drainFuel, this]
  | succ f ih =>
    intro st h
    cases hq : st.queue with
    | nil => simp [drainFuel, hq]
    | cons m rest =>
      have hm := drainNext_measure env st m rest hq
      rw [hq] at hm h
      have hle : queueMeasure (drainNext env st m rest).queue ≤ f := by
        omega
      calc drainFuel env (f + 1 + 1) st
          = drainFuel env (f + 1) (drainNext env st m rest) := by
            simp [drainFuel, hq]
        _ = drainFuel env f (drainNext env st m rest) := ih _ hle
        _ = drainFuel env (f + 1) st := by simp [drainFuel, hq]

theorem drainFuel_add (env : DrainEnv) (st : BridgeState) (k : Nat) :
    drainFuel env (queueMeasure st.queue + k) st =
      drainFuel env (queueMeasure st.queue) st := by
  induction k with
  | zero => rfl
  | succ k ih =>
    have h : queueMeasure st.queue ≤ queueMeasure st.queue + k := Nat.le_add_right _ _
    calc drainFuel env (queueMeasure st.queue + (k + 1)) st
        = drainFuel env (queueMeasure st.queue + k + 1) st := by ring_nf
      _ = drainFuel env (queueMeasure st.queue + k) st := drainFuel_succ env _ st h
      _ = drainFuel env (queueMeasure st.queue) st := ih

theorem drainFuel_of_enough (env : DrainEnv) (st : BridgeState) (f : Nat)
    (h : queueMeasure st.queue ≤ f) :
    drainFuel env f st = drainFuel env (queueMeasure st.queue) st := by
  have hk : f = queueMeasure st.queue + (f - queueMeasure st.queue) := by omega
  rw [hk]
  exact drainFuel_add env st _

/-- Drain status invariance: one while-loop iteration never touches
`currentStatus`. -/
theorem drainNext_status (env : DrainEnv) (st : BridgeState)
    (m : PendingMessage) (rest : List PendingMessage) :
    (drainNext env st m rest).status = st.status := by
  simp only [drainNext]
  cases m.direction with
  | feishuToOpencode =>
    cases lookupSessionFor st m with
    | none => rfl
    | some sid =>
      by_cases hok : env.ocSendOk m
      · simp [hok]
      · by_cases hrc : m.retryCount < 3 <;> simp [hok, hrc]
  | opencodeToFeishu =>
    by_cases hok : env.feishuSendOk m
    · simp [hok]
    · by_cases hrc : m.retryCount < 3 <;> simp [hok, hrc]

/-- Unfolding `processQueue` by one while-loop iteration while connected. -/
theorem processQueue_cons (env : DrainEnv) (st : BridgeState)
    (m : PendingMessage) (rest : List PendingMessage)
    (hst : st.status = Status.connected) (hq : st.queue = m :: rest) :
    processQueue env st = processQueue env (drainNext env st m rest) := by
  have hst2 : (drainNext env st m rest).status = Status.connected := by
    rw [drainNext_status, hst]
  have hm := drainNext_measure env st m rest hq
  simp only [processQueue, hst, if_true, hst2, if_pos]
  have hsplit : queueMeasure st.queue =
      queueMeasure (drainNext env st m rest).queue +
        (queueMeasure st.queue - queueMeasure (drainNext env st m rest).queue) := by
    omega
  rw [hsplit]
  have hrest : 1 ≤ queueMeasure st.queue - queueMeasure (drainNext env st m rest).queue := by
    omega
  have hk : queueMeasure (drainNext env st m rest).queue +
      (queueMeasure st.queue - queueMeasure (drainNext env st m rest).queue) =
      (queueMeasure (drainNext env st m rest).queue +
        (queueMeasure st.queue - queueMeasure (drainNext env st m rest).queue - 1)) + 1 := by
    omega
  rw [hk]
  calc drainFuel env ((queueMeasure (drainNext env st m rest).queue +
          (queueMeasure st.queue - queueMeasure (drainNext env st m rest).queue - 1)) + 1) st
      = drainFuel env (queueMeasure (drainNext env st m rest).queue +
          (queueMeasure st.queue - queueMeasure (drainNext env st m rest).queue - 1))
          (drainNext env st m rest) := by
        simp [drainFuel, hq]
    _ = drainFuel env (queueMeasure (drainNext env st m rest).queue)
          (drainNext env st m rest) := drainFuel_add env _ _

/-- Draining an empty queue is the identity. -/
theorem processQueue_nil (env : DrainEnv) (st : BridgeState)
    (hq : st.queue = []) : processQueue env st = st := by
  have h0 : queueMeasure st.queue = 0 := by simp [hq, queueMeasure]
  simp [processQueue, h0, drainFuel]

/-- `setStatus(STATUS.ERROR, msg)` from bridge.cjs. -/
def setStatusError (msg : String) (st : BridgeState) : BridgeState :=
  { st with status := Status.error, errorMessage := some msg }

/-- `setStatus(STATUS.CONNECTED)` from bridge.cjs (clears the error message). -/
def setStatusConnected (st : BridgeState) : BridgeState :=
  { st with status := Status.connected, errorMessage := none }

/-- `setStatus` for `idle` and `connecting`: only the status word changes
(the error message is cleared only on CONNECTED). -/
def setStatusPlain (s : Status) (st : BridgeState) : BridgeState :=
  { st with status := s }

/-- `updateConnectionStatus` from bridge.cjs: both leaves connected forces
`connected`; otherwise a previously `connected` bridge drops to `error`
with message "Connection lost". -/
def updateConnectionStatus (st : BridgeState) : BridgeState :=
  if st.feishuConnected && st.opencodeConnected then
    if st.status ≠ Status.connected then setStatusConnected st else st
  else if st.status = Status.connected then setStatusError "Connection lost" st
  else st

/-- The connected/disconnected events of the two leaf components, as wired
by the handlers registered in `start`. -/
inductive LeafEvent where
  | feishuConnected
  | feishuDisconnected
  | opencodeConnected
  | opencodeDisconnected
deriving DecidableEq, Repr

/-- One leaf connection event: flip the matching flag, then
`updateConnectionStatus()`. -/
def stepLeafEvent (e : LeafEvent) (st : BridgeState) : BridgeState :=
  match e with
  | LeafEvent.feishuConnected => updateConnectionStatus { st with feishuConnected := true }
  | LeafEvent.feishuDisconnected => updateConnectionStatus { st with feishuConnected := false }
  | LeafEvent.opencodeConnected => updateConnectionStatus { st with opencodeConnected := true }
  | LeafEvent.opencodeDisconnected => updateConnectionStatus { st with opencodeConnected := false }

/-- A sequence of leaf connection events applied in order. -/
def runLeafEvents (es : List LeafEvent) (st : BridgeState) : BridgeState :=
  es.foldl (fun s e => stepLeafEvent e s) st

/-- `stop()` from bridge.cjs: status goes to `idle` first, queue and
chat-session map are cleared, and each leaf whose connected flag is set gets
one `stop()` call (failures swallowed) with the flag reset. -/
def bridgeStop (st : BridgeState) : BridgeState :=
  let st1 := setStatusPlain Status.idle st
  let st2 := { st1 with queue := [], sessions := [], moduleSessionId := none }
  let st3 :=
    if st2.feishuConnected then
      { st2 with feishuStopCount := st2.feishuStopCount + 1, feishuConnected := false }
    else st2
  if st3.opencodeConnected then
    { st3 with opencodeStopCount := st3.opencodeStopCount + 1, opencodeConnected := false }
  else st3

/-- The `config.feishu` object checked by `start`. -/
structure FeishuConfig where
  appId : Option String
  appSecret : Option String
deriving DecidableEq, Repr

/-- The `config.opencode` object checked by `start`. -/
structure OpencodeConfig where
  workDir : Option String
  host : Option String
  port : Option Nat
deriving DecidableEq, Repr

/-- The `config` argument of `start`. -/
structure Config where
  opencode : Option OpencodeConfig
  feishu : Option FeishuConfig
deriving DecidableEq, Repr

/-- JavaScript truthiness of the optional `port` number (`0` is falsy). -/
def portTruthy : Option Nat → Bool
  | none => false
  | some p => p != 0

/-- Outcomes of the external calls made during `start`: the port probe and
the three awaited startup calls. -/
structure StartEnv where
  portInUse : Bool
  feishuStart : Except String Unit
  opencodeStart : Except String Unit
  eventStream : Except String Unit

/-- The catch block of the `start` promise body: `setStatus(ERROR, msg)`,
best-effort `stop()`, reject with the underlying cause. -/
def startCatch (e : String) (st : BridgeState) : Except String Unit × BridgeState :=
  (Except.error e, bridgeStop (setStatusError e st))

/-- The awaited startup sequence inside the `start` promise body:
`feishu.start`, `opencode.start`, `opencode.getEventStream`, then
`updateConnectionStatus()`; any failure goes through the catch block. -/
def startBody (env : StartEnv) (st : BridgeState) : Except String Unit × BridgeState :=
  match env.feishuStart with
  | Except.error e => startCatch e st
  | Except.ok _ =>
    let st1 := { st with feishuConnected := true }
    match env.opencodeStart with
    | Except.error e => startCatch e st1
    | Except.ok _ =>
      let st2 := { st1 with opencodeConnected := true }
      match env.eventStream with
      | Except.error e => startCatch e st2
      | Except.ok _ => (Except.ok (), updateConnectionStatus st2)

/-- The text of the port-conflict error raised by `start`. -/
def portInUseMsg (p : Nat) : String :=
  "Port " ++ toString p ++ " is already in use. There might be a previous opencode process running. Please stop it manually or use a different port."

/-- `start(config)` from bridge.cjs: config validation throws before any
state change; an already `connecting`/`connected` bridge rejects; then
status becomes `connecting`, the opencode port is probed (failing fast to
`error` when occupied), and the startup sequence runs. -/
def start (cfg : Option Config) (env : StartEnv) (st : BridgeState) :
    Except String Unit × BridgeState :=
  match cfg with
  | none => (Except.error "Config is required", st)
  | some config =>
    match config.opencode with
    | none => (Except.error "opencode config is required", st)
    | some oc =>
      match config.feishu with
      | none => (Except.error "feishu config is required", st)
      | some fe =>
        if !(truthy fe.appId) || !(truthy fe.appSecret) then
          (Except.error "feishu appId and appSecret are required", st)
        else if st.status = Status.connected ∨ st.status = Status.connecting then
          (Except.error "Bridge is already running", st)
        else
          let st1 := setStatusPlain Status.connecting st
          if portTruthy oc.port && env.portInUse then
            let msg := portInUseMsg (oc.port.getD 0)
            (Except.error msg, setStatusError msg st1)
          else
            startBody env st1

/-- `getStatus()` from bridge.cjs: the observable status record. -/
structure StatusReport where
  status : Status
  error : Option String
  feishuConnected : Bool
  opencodeConnected : Bool
  queueSize : Nat
  sessionCount : Nat
deriving DecidableEq, Repr

/-- `getStatus` as a pure read of the module state. -/
def getStatus (st : BridgeState) : StatusReport :=
  ⟨st.status, st.errorMessage, st.feishuConnected, st.opencodeConnected,
    st.queue.length, st.sessions.length⟩

/-- The liveness-relevant state of the `OpenCodeClient` instance from
opencode.cjs: its `connected` flag and a count of `disconnected` emissions. -/
structure OCClientState where
  connected : Bool
  disconnectedEmits : Nat
deriving DecidableEq, Repr

/-- Asynchronous detector firings of the `OpenCodeClient`: a health poll
answering success or not, the child process `exit` handler, and the event
stream `end` handler. -/
inductive OCEvent where
  | healthPollOk
  | healthPollFail
  | processExit
  | streamEnd
deriving DecidableEq, Repr

/-- One detector firing: the health poll emits `disconnected` only while
`connected` is still set; the process-exit and stream-end handlers emit it
unconditionally (stream end does not clear `connected`). -/
def ocStep (e : OCEvent) (c : OCClientState) : OCClientState :=
  match e with
  | OCEvent.healthPollOk => c
  | OCEvent.healthPollFail =>
    if c.connected then ⟨false, c.disconnectedEmits + 1⟩ else c
  | OCEvent.processExit => ⟨false, c.disconnectedEmits + 1⟩
  | OCEvent.streamEnd => { c with disconnectedEmits := c.disconnectedEmits + 1 }

/-- A sequence of detector firings applied in order. -/
def ocRun (es : List OCEvent) (c : OCClientState) : OCClientState :=
  es.foldl (fun s e => ocStep e s) c

/-- The client state right after a successful `start()`: connected, with no
emission yet charged against this run. -/
def ocStarted : OCClientState := ⟨true, 0⟩

/-- Operations on the module-level retry queue. -/
inductive QOp where
  | enq (m : PendingMessage)
  | deq
deriving Repr

/-- Apply one queue operation. -/
def applyOp (q : List PendingMessage) (op : QOp) : List PendingMessage :=
  match op with
  | QOp.enq m => enqueue m q
  | QOp.deq => (dequeue q).2

/-- Apply a sequence of queue operations to the initially empty queue. -/
def applyOps (ops : List QOp) : List PendingMessage :=
  ops.foldl applyOp []

theorem enqueue_length_le (m : PendingMessage) (q : List PendingMessage)
    (h : q.length ≤ MAX_QUEUE_SIZE) : (enqueue m q).length ≤ MAX_QUEUE_SIZE := by
  unfold enqueue
  by_cases hq : MAX_QUEUE_SIZE ≤ q.length
  · rw [if_pos hq]
    cases q with
    | nil => simp [MAX_QUEUE_SIZE] at hq
    | cons a q' =>
      simp only [List.tail_cons, List.length_append, List.length_cons,
        List.length_nil] at h ⊢
      omega
  · rw [if_neg hq]
    simp only [List.length_append, List.length_cons, List.length_nil]
    omega

theorem applyOp_length_le (q : List PendingMessage) (op : QOp)
    (h : q.length ≤ MAX_QUEUE_SIZE) : (applyOp q op).length ≤ MAX_QUEUE_SIZE := by
  cases op with
  | enq m => exact enqueue_length_le m q h
  | deq =>
    cases q with
    | nil => exact h
    | cons a q' =>
      simp [applyOp, dequeue]
      simp at h
      omega

theorem foldl_applyOp_length_le :
    ∀ (ops : List QOp) (q : List PendingMessage), q.length ≤ MAX_QUEUE_SIZE →
      (ops.foldl applyOp q).length ≤ MAX_QUEUE_SIZE := by
  intro ops
  induction ops with
  | nil => intro q h; exact h
  | cons op rest ih =>
    intro q h
    simpa [List.foldl_cons] using ih (applyOp q op) (applyOp_length_le q op h)

theorem foldl_enqueue :
    ∀ (l q : List PendingMessage), q.length ≤ MAX_QUEUE_SIZE →
      l.foldl (fun acc m => enqueue m acc) q =
        (q ++ l).drop ((q ++ l).length - MAX_QUEUE_SIZE)
  | [], q, h => by
    simp [Nat.sub_eq_zero_of_le h]
  | m :: l', q, h => by
    by_cases hq : MAX_QUEUE_SIZE ≤ q.length
    · have hq100 : q.length = MAX_QUEUE_SIZE := le_antisymm h hq
      cases q with
      | nil => simp [MAX_QUEUE_SIZE] at hq100
      | cons a q' =>
        have henq : enqueue m (a :: q') = q' ++ [m] := by
          unfold enqueue
          rw [if_pos hq]
          rfl
        have hq' : q'.length + 1 = MAX_QUEUE_SIZE := by
          simpa using hq100
        have hlen : (q' ++ [m]).length ≤ MAX_QUEUE_SIZE := by
          simp
          omega
        have ih := foldl_enqueue l' (q' ++ [m]) hlen
        rw [List.foldl_cons, henq, ih]
        have hassoc : (q' ++ [m]) ++ l' = q' ++ (m :: l') := by simp
        rw [hassoc]
        have hidx1 : (q' ++ m :: l').length - MAX_QUEUE_SIZE = l'.length := by
          simp
          omega
        have hidx2 : ((a :: q') ++ m :: l').length - MAX_QUEUE_SIZE = l'.length + 1 := by
          simp
          omega
        rw [hidx1, hidx2, List.cons_append, List.drop_succ_cons]
    · have henq : enqueue m q = q ++ [m] := by simp [enqueue, hq]
      have hlen : (q ++ [m]).length ≤ MAX_QUEUE_SIZE := by
        simp
        omega
      have ih := foldl_enqueue l' (q ++ [m]) hlen
      rw [List.foldl_cons, henq, ih]
      simp [List.append_assoc]

theorem ocRun_disconnected_fixpoint :
    ∀ (es : List OCEvent) (c : OCClientState),
      (∀ e ∈ es, e = OCEvent.healthPollFail ∨ e = OCEvent.healthPollOk) →
      c.connected = false → ocRun es c = c := by
  intro es
  induction es with
  | nil => intro c _ _; rfl
  | cons e rest ih =>
    intro c hall hc
    have he := hall e (List.mem_cons_self e rest)
    have hrest : ∀ x ∈ rest, x = OCEvent.healthPollFail ∨ x = OCEvent.healthPollOk :=
      fun x hx => hall x (List.mem_cons_of_mem e hx)
    cases he with
    | inl h =>
      subst h
      have hstep : ocStep OCEvent.healthPollFail c = c := by
        simp [ocStep, hc]
      calc ocRun (OCEvent.healthPollFail :: rest) c
          = ocRun rest (ocStep OCEvent.healthPollFail c) := rfl
        _ = ocRun rest c := by rw [hstep]
        _ = c := ih c hrest hc
    | inr h =>
      subst h
      simpa [ocRun, List.foldl_cons, ocStep] using ih c hrest hc

theorem ocRun_poll_emits :
    ∀ (es : List OCEvent) (n : Nat),
      (∀ e ∈ es, e = OCEvent.healthPollFail ∨ e = OCEvent.healthPollOk) →
      (ocRun es ⟨true, n⟩).disconnectedEmits =
        n + (if OCEvent.healthPollFail ∈ es then 1 else 0) := by
  intro es
  induction es with
  | nil => intro n _; simp [ocRun]
  | cons e rest ih =>
    intro n hall
    have he := hall e (List.mem_cons_self e rest)
    have hrest : ∀ x ∈ rest, x = OCEvent.healthPollFail ∨ x = OCEvent.healthPollOk :=
      fun x hx => hall x (List.mem_cons_of_mem e hx)
    cases he with
    | inl h =>
      subst h
      have hfix : ocRun rest ⟨false, n + 1⟩ = ⟨false, n + 1⟩ :=
        ocRun_disconnected_fixpoint rest ⟨false, n + 1⟩ hrest rfl
      simp [ocRun, List.foldl_cons, ocStep] at hfix ⊢
      simp [hfix]
    | inr h =>
      subst h
      have hmem : (OCEvent.healthPollFail ∈ OCEvent.healthPollOk :: rest) =
          (OCEvent.healthPollFail ∈ rest) := by
        simp
      simp [ocRun, List.foldl_cons, ocStep] at ih ⊢
      rw [ih n hrest]

theorem partsText_eq_typed_concat :
    ∀ (ps : List OCPart),
      partsText ps =
        joinAll ((ps.filter (fun p => p.type == "text")).map (fun p => p.text.getD "")) := by
  intro ps
  induction ps with
  | nil => rfl
  | cons p rest ih =>
    by_cases ht : p.type == "text"
    · by_cases htt : truthy p.text
      · simp [partsText, List.filter_cons, ht, htt, joinAll] at ih ⊢
        rw [ih]
      · have hgd : p.text.getD "" = "" := by
          cases hpt : p.text with
          | none => rfl
          | some s =>
            simp [truthy, hpt] at htt
            simp [hpt, htt]
        simp [partsText, List.filter_cons, ht, htt, joinAll, hgd] at ih ⊢
        rw [ih]
    · simpa [partsText, List.filter_cons, ht] using ih

theorem mapGet_isSome_of_mapHas (ml : List (String × String)) (k : String)
    (h : mapHas ml k = true) : ∃ v, mapGet ml k = some v := by
  simp only [mapHas, List.any_eq_true] at h
  obtain ⟨p, hp, hpk⟩ := h
  have hsome : (ml.find? (fun p => p.1 == k)).isSome := by
    rw [List.find?_isSome]
    exact ⟨p, hp, hpk⟩
  obtain ⟨q, hq⟩ := Option.isSome_iff_exists.mp hsome
  exact ⟨q.2, by simp [mapGet, hq]⟩

theorem mapGet_append_self (ml : List (String × String)) (k v : String)
    (h : mapHas ml k = false) : mapGet (ml ++ [(k, v)]) k = some v := by
  have hnone : ml.find? (fun p => p.1 == k) = none := by
    rw [List.find?_eq_none]
    intro p hp
    simp only [mapHas] at h
    have := List.any_eq_false.mp h p hp
    simpa using this
  simp [mapGet, List.find?_append, hnone]

/-!
Concrete fixtures: a valid configuration, start environments, and the
module states reached by running the embedded operations on them.
-/

/-- A valid `config.opencode` object. -/
def ocCfg0 : OpencodeConfig := ⟨some "/work", some "localhost", some 4000⟩

/-- A valid `config.feishu` object. -/
def feCfg0 : FeishuConfig := ⟨some "app-id", some "app-secret"⟩

/-- A valid bridge configuration. -/
def cfg0 : Config := ⟨some ocCfg0, some feCfg0⟩

/-- Start environment in which every external call succeeds. -/
def envStartOk : StartEnv := ⟨false, Except.ok (), Except.ok (), Except.ok ()⟩

/-- Start environment in which the assistant client's `start()` rejects with
`StartupTimeout` after the chat gateway has started. -/
def envStartTimeout : StartEnv :=
  ⟨false, Except.ok (), Except.error "StartupTimeout", Except.ok ()⟩

/-- The module state after a fully successful `start`. -/
def stConn : BridgeState := (start (some cfg0) envStartOk st0).2

/-- The error state reached from `stConn` when the assistant client loses
liveness (its `disconnected` event fires). -/
def stErr : BridgeState := stepLeafEvent LeafEvent.opencodeDisconnected stConn

/-- Inbound environment in which session creation and sends succeed. -/
def envInboundOk : InboundEnv := ⟨Except.ok "s1", true⟩

/-- The inbound message of the C4 scenario. -/
def msgM1 : FeishuMessage := ⟨"c1", "hello", none, some "m1", false⟩

/-- A connected state whose seen-message window already holds `m1`. -/
def stDup : BridgeState := { stConn with processedMessageIds := ["m1"] }

/-- An inbound message carrying no message identifier. -/
def msgNoId : FeishuMessage := ⟨"c1", "hello", none, none, false⟩

/-- Drain environment in which every send attempt fails. -/
def envAllFail : DrainEnv := ⟨fun _ => false, fun _ => false⟩

/-- A fresh outbound queue entry. -/
def mC3 : PendingMessage :=
  ⟨Direction.opencodeToFeishu, some "c1", "hello", none, none, none, 0⟩

/-- A connected state whose retry queue holds exactly the fresh entry. -/
def stC3 : BridgeState := { st0 with status := Status.connected, queue := [mC3] }

/-- A queued inbound entry whose chat has no session mapping. -/
def mC9 : PendingMessage :=
  ⟨Direction.feishuToOpencode, some "c9", "queued", none, none, none, 2⟩

/-- A connected state whose retry queue holds only the sessionless entry. -/
def stC9 : BridgeState := { st0 with status := Status.connected, queue := [mC9] }

/-- A distinct queue entry for each index (retry counters differ). -/
def msgN (i : Nat) : PendingMessage :=
  ⟨Direction.opencodeToFeishu, none, "", none, none, none, i⟩

/-- One hundred further distinct entries, indices 1 through 100. -/
def qT : List PendingMessage := (List.range MAX_QUEUE_SIZE).map (fun i => msgN (i + 1))

/-- The outbound payload of the C6 scenario. -/
def msgHi : OCMessage := OCMessage.obj none none (some [⟨"text", some "Hi"⟩]) none

/-- The state after the C6 payload arrives once on a fresh bridge. -/
def stHi1 : BridgeState := handleOpenCodeToFeishu true msgHi st0

/-!
Claim theorems.
-/

/-- C1 (amended): when the gateway start succeeds and the assistant client
start rejects with cause `e`, the overall `start()` rejects with `e` and the
gateway's `stop()` is invoked exactly once as cleanup; the cleanup `stop()`
then moves the status to `idle` (after the transient `error`), retaining the
error message. -/
theorem c1_start_failure_cleanup (cfg : Config) (oc : OpencodeConfig)
    (fe : FeishuConfig) (env : StartEnv) (st : BridgeState) (e : String)
    (hoc : cfg.opencode = some oc) (hfe : cfg.feishu = some fe)
    (hid : truthy fe.appId = true) (hsec : truthy fe.appSecret = true)
    (hidle : st.status = Status.idle)
    (hocconn : st.opencodeConnected = false)
    (hport : env.portInUse = false)
    (hfs : env.feishuStart = Except.ok ())
    (hos : env.opencodeStart = Except.error e) :
    (start (some cfg) env st).1 = Except.error e
    ∧ (start (some cfg) env st).2.status = Status.idle
    ∧ (start (some cfg) env st).2.errorMessage = some e
    ∧ (start (some cfg) env st).2.feishuStopCount = st.feishuStopCount + 1
    ∧ (start (some cfg) env st).2.opencodeStopCount = st.opencodeStopCount := by
  simp [start, hoc, hfe, hid, hsec, hidle, hocconn, hport, hfs, hos,
    startBody, startCatch, bridgeStop, setStatusError, setStatusPlain]

/-- C1 witness: the amended behaviour at the concrete StartupTimeout run. -/
theorem c1_start_failure_cleanup_witness :
    (start (some cfg0) envStartTimeout st0).1 = Except.error "StartupTimeout"
    ∧ (start (some cfg0) envStartTimeout st0).2.status = Status.idle
    ∧ (start (some cfg0) envStartTimeout st0).2.errorMessage = some "StartupTimeout"
    ∧ (start (some cfg0) envStartTimeout st0).2.feishuStopCount = st0.feishuStopCount + 1
    ∧ (start (some cfg0) envStartTimeout st0).2.opencodeStopCount = st0.opencodeStopCount :=
  c1_start_failure_cleanup cfg0 ocCfg0 feCfg0 envStartTimeout st0 "StartupTimeout"
    rfl rfl (by decide) (by decide) rfl rfl rfl rfl rfl

/-- C1 counterexample: after the StartupTimeout failure the call rejects
with the cause and the gateway was stopped once, but `getStatus().status`
is `idle`, not `error` as the claim states. -/
theorem c1_counterexample :
    (start (some cfg0) envStartTimeout st0).1 = Except.error "StartupTimeout"
    ∧ (start (some cfg0) envStartTimeout st0).2.feishuStopCount = 1
    ∧ (getStatus (start (some cfg0) envStartTimeout st0).2).status = Status.idle
    ∧ (getStatus (start (some cfg0) envStartTimeout st0).2).status ≠ Status.error :=
  ⟨rfl, by decide, by decide, by decide⟩

/-- C2 (amended): from an `error` state, a single leaf connection event
moves the bridge to `connected` exactly when both connected flags hold
afterwards; otherwise the bridge stays in `error`. -/
theorem c2_error_state_exit (st : BridgeState) (e : LeafEvent)
    (h : st.status = Status.error) :
    ((stepLeafEvent e st).status = Status.connected ↔
      (stepLeafEvent e st).feishuConnected = true
        ∧ (stepLeafEvent e st).opencodeConnected = true)
    ∧ ((stepLeafEvent e st).status = Status.connected
        ∨ (stepLeafEvent e st).status = Status.error) := by
  cases e <;>
    cases hf : st.feishuConnected <;>
      cases ho : st.opencodeConnected <;>
        simp [stepLeafEvent, updateConnectionStatus, setStatusConnected,
          setStatusError, h, hf, ho]

/-- C2 witness: the amended characterisation at the reachable error state. -/
theorem c2_error_state_exit_witness :
    stErr.status = Status.error
    ∧ (stepLeafEvent LeafEvent.opencodeConnected stErr).status = Status.connected :=
  ⟨by decide,
    ((c2_error_state_exit stErr LeafEvent.opencodeConnected (by decide)).1).mpr (by decide)⟩

/-- C2 counterexample: from the started bridge, an assistant disconnect
reaches `error`, and a following assistant reconnect event alone returns the
state to `connected` with no intervening `start()` call. -/
theorem c2_counterexample :
    stConn.status = Status.connected
    ∧ (runLeafEvents [LeafEvent.opencodeDisconnected] stConn).status = Status.error
    ∧ (runLeafEvents [LeafEvent.opencodeDisconnected, LeafEvent.opencodeConnected]
        stConn).status = Status.connected := by
  decide

/-- C3 (amended): within one drain cycle, for an entry of either direction
(an outbound `opencode→feishu` entry, or an inbound `feishu→opencode` entry
whose chat has a session), a failed attempt while the retry counter is below
3 reinserts the entry at the front with the counter incremented, so the same
cycle immediately reattempts it; a failed attempt at counter 3 or above
drops the entry. An always-failing fresh entry is thus attempted four times
in a single drain (counters 0 through 3) and then dropped. -/
theorem c3_drain_retry_policy (env : DrainEnv) (st : BridgeState)
    (m : PendingMessage) (rest : List PendingMessage)
    (hst : st.status = Status.connected) (hq : st.queue = m :: rest) :
    (m.direction = Direction.opencodeToFeishu → env.feishuSendOk m = false →
      m.retryCount < 3 →
      processQueue env st = processQueue env
        { st with queue := { m with retryCount := m.retryCount + 1 } :: rest,
                  feishuSends := st.feishuSends ++ [(m.chatId, m.text)] })
    ∧ (m.direction = Direction.opencodeToFeishu → env.feishuSendOk m = false →
      3 ≤ m.retryCount →
      processQueue env st = processQueue env
        { st with queue := rest,
                  feishuSends := st.feishuSends ++ [(m.chatId, m.text)] })
    ∧ (∀ sid, m.direction = Direction.feishuToOpencode →
      lookupSessionFor st m = some sid → env.ocSendOk m = false →
      m.retryCount < 3 →
      processQueue env st = processQueue env
        { st with queue := { m with retryCount := m.retryCount + 1 } :: rest,
                  ocSends := st.ocSends ++ [(sid, m.text)] })
    ∧ (∀ sid, m.direction = Direction.feishuToOpencode →
      lookupSessionFor st m = some sid → env.ocSendOk m = false →
      3 ≤ m.retryCount →
      processQueue env st = processQueue env
        { st with queue := rest,
                  ocSends := st.ocSends ++ [(sid, m.text)] })
    ∧ (processQueue envAllFail stC3).feishuSends =
        [(some "c1", "hello"), (some "c1", "hello"),
          (some "c1", "hello"), (some "c1", "hello")]
    ∧ (processQueue envAllFail stC3).queue = [] := by
  refine ⟨?_, ?_, ?_, ?_, by decide, by decide⟩
  · intro hdir hfail hrc
    rw [processQueue_cons env st m rest hst hq]
    congr 1
    simp [drainNext, hdir, hfail, hrc]
  · intro hdir hfail hrc
    have hrc2 : ¬(m.retryCount < 3) := by omega
    rw [processQueue_cons env st m rest hst hq]
    congr 1
    simp [drainNext, hdir, hfail, hrc2]
  · intro sid hdir hsid hfail hrc
    rw [processQueue_cons env st m rest hst hq]
    congr 1
    simp [drainNext, hdir, hsid, hfail, hrc]
  · intro sid hdir hsid hfail hrc
    have hrc2 : ¬(m.retryCount < 3) := by omega
    rw [processQueue_cons env st m rest hst hq]
    congr 1
    simp [drainNext, hdir, hsid, hfail, hrc2]

/-- C3 witness: the retry-below-ceiling equation at the concrete fresh
entry. -/
theorem c3_drain_retry_policy_witness :
    processQueue envAllFail stC3 = processQueue envAllFail
      { stC3 with queue := { mC3 with retryCount := mC3.retryCount + 1 } :: [],
                  feishuSends := stC3.feishuSends ++ [(mC3.chatId, mC3.text)] } :=
  (c3_drain_retry_policy envAllFail stC3 mC3 [] rfl rfl).1 rfl rfl (by decide)

/-- C3 counterexample: the single entry present at the start of the drain is
attempted four times during that drain cycle, not at most once. -/
theorem c3_counterexample :
    (processQueue envAllFail stC3).feishuSends.length = 4
    ∧ ¬((processQueue envAllFail stC3).feishuSends.length ≤ 1) := by
  decide

/-- C4: an inbound message whose truthy identifier is already in the
seen-message window leaves the module state untouched, so the assistant-send
call count does not increase; and the concrete `m1` message delivered twice
to the started bridge produces exactly one send. -/
theorem c4_inbound_dedup (env : InboundEnv) (msg : FeishuMessage)
    (st : BridgeState)
    (htr : truthy msg.messageId = true)
    (hmem : msg.messageId.getD "" ∈ st.processedMessageIds) :
    handleFeishuToOpenCode env msg st = st
    ∧ (handleFeishuToOpenCode env msg st).ocSends.length = st.ocSends.length
    ∧ (handleFeishuToOpenCode envInboundOk msgM1
        (handleFeishuToOpenCode envInboundOk msgM1 stConn)).ocSends.length = 1 := by
  have heq : handleFeishuToOpenCode env msg st = st := by
    simp [handleFeishuToOpenCode, isDuplicateMessage, htr, hmem]
  refine ⟨heq, by rw [heq], by decide⟩

/-- C4 witness: the dedup no-op at a state whose window holds `m1`. -/
theorem c4_inbound_dedup_witness :
    handleFeishuToOpenCode envInboundOk msgM1 stDup = stDup
    ∧ (handleFeishuToOpenCode envInboundOk msgM1 stDup).ocSends.length =
        stDup.ocSends.length
    ∧ (handleFeishuToOpenCode envInboundOk msgM1
        (handleFeishuToOpenCode envInboundOk msgM1 stConn)).ocSends.length = 1 :=
  c4_inbound_dedup envInboundOk msgM1 stDup (by decide) (by decide)

/-- C5: the retry queue never exceeds `MAX_QUEUE_SIZE` under any operation
sequence; enqueueing onto a full queue drops the oldest entry; and enqueuing
101 distinct entries leaves exactly the latest 100 in FIFO order, the first
entry absent. -/
theorem c5_queue_bounded (ops : List QOp) (x : PendingMessage)
    (t : List PendingMessage)
    (hlen : (x :: t).length = MAX_QUEUE_SIZE + 1)
    (hnd : (x :: t).Nodup) :
    (applyOps ops).length ≤ MAX_QUEUE_SIZE
    ∧ (∀ (q : List PendingMessage) (m : PendingMessage),
        q.length = MAX_QUEUE_SIZE → enqueue m q = q.tail ++ [m])
    ∧ (x :: t).foldl (fun acc m => enqueue m acc) [] = t
    ∧ x ∉ t := by
  refine ⟨foldl_applyOp_length_le ops [] (by simp), ?_, ?_, (List.nodup_cons.mp hnd).1⟩
  · intro q m hq
    unfold enqueue
    rw [if_pos (le_of_eq hq.symm)]
  · rw [foldl_enqueue (x :: t) [] (by simp)]
    have hidx : (([] : List PendingMessage) ++ (x :: t)).length - MAX_QUEUE_SIZE = 1 := by
      simp only [List.nil_append]
      omega
    rw [hidx]
    simp

/-- C5 witness: the bound and the 101-distinct-entries scenario at concrete
values. -/
theorem c5_queue_bounded_witness :
    (applyOps []).length ≤ MAX_QUEUE_SIZE
    ∧ (msgN 0 :: qT).foldl (fun acc m => enqueue m acc) [] = qT
    ∧ msgN 0 ∉ qT := by
  have hinj : Function.Injective msgN := by
    intro a b hab
    simpa [msgN] using congrArg PendingMessage.retryCount hab
  have hform : (msgN 0 :: qT) = (List.range (MAX_QUEUE_SIZE + 1)).map msgN := by
    rw [List.range_succ_eq_map, List.map_cons, List.map_map]
    rfl
  have hnd : (msgN 0 :: qT).Nodup := by
    rw [hform]
    exact List.Nodup.map hinj (List.nodup_range _)
  have h := c5_queue_bounded [] (msgN 0) qT (by simp [qT]) hnd
  exact ⟨h.1, h.2.2.1, h.2.2.2⟩

/-- C6 (amended): an outbound payload with non-empty extracted text, whose
content fingerprint is not already in the outbound dedup window, arriving
while the chat-session map is empty and the queue below capacity, is
appended to the retry queue with direction `opencode→feishu` and the queue
depth grows by one. -/
theorem c6_orphan_payload_queued (msg : OCMessage) (st : BridgeState) (ok : Bool)
    (hses : st.sessions = [])
    (htext : extractText msg ≠ "")
    (hdup : (isDuplicateOpenCodeMessage msg st.processedOpenCodeKeys).1 = false)
    (hcap : st.queue.length < MAX_QUEUE_SIZE) :
    (handleOpenCodeToFeishu ok msg st).queue =
      st.queue ++ [⟨Direction.opencodeToFeishu, none, extractText msg,
        sessionIdFromMsg msg, none, none, 0⟩]
    ∧ (handleOpenCodeToFeishu ok msg st).queue.length = st.queue.length + 1 := by
  have hne : (extractText msg == "") = false := by
    simp [htext]
  have henq : ∀ (m : PendingMessage), enqueue m st.queue = st.queue ++ [m] := by
    intro m
    unfold enqueue
    rw [if_neg (by omega)]
  have hmain : (handleOpenCodeToFeishu ok msg st).queue =
      st.queue ++ [⟨Direction.opencodeToFeishu, none, extractText msg,
        sessionIdFromMsg msg, none, none, 0⟩] := by
    simp [handleOpenCodeToFeishu, hdup, hne, hses, jsFalsyStr, truthy, henq]
  exact ⟨hmain, by rw [hmain]; simp⟩

/-- C6 witness: the concrete `Hi` payload on a fresh bridge is queued. -/
theorem c6_orphan_payload_queued_witness :
    (handleOpenCodeToFeishu true msgHi st0).queue =
      st0.queue ++ [⟨Direction.opencodeToFeishu, none, extractText msgHi,
        sessionIdFromMsg msgHi, none, none, 0⟩]
    ∧ (handleOpenCodeToFeishu true msgHi st0).queue.length = st0.queue.length + 1 :=
  c6_orphan_payload_queued msgHi st0 true rfl (by decide) (by decide) (by decide)

/-- C6 counterexample: the same `Hi` payload delivered twice with the map
still empty is dropped by the outbound dedup window on the second arrival,
so the queue depth stays at 1 instead of increasing by 1. -/
theorem c6_counterexample :
    stHi1.sessions = []
    ∧ extractText msgHi ≠ ""
    ∧ stHi1.queue.length = 1
    ∧ (handleOpenCodeToFeishu true msgHi stHi1).queue.length = 1 := by
  decide

/-- Modelled from the C7 claim wording: extraction keyed on field presence
rather than truthiness — a plain string yields itself; an object with a
`content` field yields that content; otherwise a `text` field yields that
text; otherwise a `parts` array yields the in-order concatenation of the
text of all parts whose type is `'text'`. -/
def specClaimedExtractText : OCMessage → String
  | OCMessage.str s => s
  | OCMessage.obj (some c) _ _ _ => c
  | OCMessage.obj none (some t) _ _ => t
  | OCMessage.obj none none (some ps) _ =>
    joinAll ((ps.filter (fun p => p.type == "text")).map (fun p => p.text.getD ""))
  | OCMessage.obj none none none _ => ""

/-- C7 (amended): extraction selects branches by JavaScript truthiness, not
mere field presence: a truthy `content` wins, else a truthy `text`, else the
`parts` concatenation (parts of type `'text'`; empty-text parts contribute
nothing); a plain string yields itself; and an empty extracted text leaves
the queue and the outbound send list untouched. -/
theorem c7_extraction_ladder (s : String) (content text : Option String)
    (parts : Option (List OCPart)) (sid : Option String)
    (msg : OCMessage) (st : BridgeState) (ok : Bool) :
    extractText (OCMessage.str s) = s
    ∧ (truthy content = true →
        extractText (OCMessage.obj content text parts sid) = content.getD "")
    ∧ (truthy content = false → truthy text = true →
        extractText (OCMessage.obj content text parts sid) = text.getD "")
    ∧ (truthy content = false → truthy text = false →
        extractText (OCMessage.obj content text parts sid) =
          joinAll (((parts.getD []).filter (fun p => p.type == "text")).map
            (fun p => p.text.getD "")))
    ∧ (extractText msg = "" →
        (handleOpenCodeToFeishu ok msg st).queue = st.queue
        ∧ (handleOpenCodeToFeishu ok msg st).feishuSends = st.feishuSends) := by
  refine ⟨rfl, ?_, ?_, ?_, ?_⟩
  · intro hc
    simp [extractText, hc]
  · intro hc ht
    simp [extractText, hc, ht]
  · intro hc ht
    cases parts with
    | none => simp [extractText, hc, ht, joinAll]
    | some ps =>
      simp [extractText, hc, ht, Option.getD]
      exact partsText_eq_typed_concat ps
  · intro hempty
    by_cases hdup : (isDuplicateOpenCodeMessage msg st.processedOpenCodeKeys).1
    · constructor <;> simp [handleOpenCodeToFeishu, hdup]
    · have hne : (extractText msg == "") = true := by
        simp [hempty]
      constructor <;>
        simp [handleOpenCodeToFeishu, eq_false_of_ne_true (by simpa using hdup), hne]

/-- C7 witness: the ladder at concrete inputs. -/
theorem c7_extraction_ladder_witness :
    extractText (OCMessage.str "plain") = "plain"
    ∧ (handleOpenCodeToFeishu true (OCMessage.obj none none none none) st0).queue = st0.queue :=
  ⟨(c7_extraction_ladder "plain" none none none none
      (OCMessage.obj none none none none) st0 true).1,
    ((c7_extraction_ladder "plain" none none none none
      (OCMessage.obj none none none none) st0 true).2.2.2.2 rfl).1⟩

/-- C7 counterexample: the payload with an (empty) `content` field and a
non-empty `text` field: the claimed mapping yields the content (empty, so
nothing would be delivered), but the code falls through truthiness to the
`text` field, extracts `x`, and sends it. -/
theorem c7_counterexample :
    extractText (OCMessage.obj (some "") (some "x") none none) = "x"
    ∧ specClaimedExtractText (OCMessage.obj (some "") (some "x") none none) = ""
    ∧ extractText (OCMessage.obj (some "") (some "x") none none) ≠
        specClaimedExtractText (OCMessage.obj (some "") (some "x") none none)
    ∧ (handleOpenCodeToFeishu true (OCMessage.obj (some "") (some "x") none none)
        { st0 with sessions := [("c1", "s1")] }).feishuSends = [(some "c1", "x")] := by
  decide

/-- C8 (amended): after a successful assistant start, the health-poll loop
emits `disconnected` exactly once across any run of poll outcomes (once if
some poll fails, never otherwise) until the next start; the process-exit and
stream-end handlers, by contrast, emit `disconnected` unconditionally on
every firing. -/
theorem c8_disconnect_emissions (es : List OCEvent)
    (hpoll : ∀ e ∈ es, e = OCEvent.healthPollFail ∨ e = OCEvent.healthPollOk)
    (c : OCClientState) :
    (ocRun es ocStarted).disconnectedEmits =
      (if OCEvent.healthPollFail ∈ es then 1 else 0)
    ∧ (ocStep OCEvent.processExit c).disconnectedEmits = c.disconnectedEmits + 1
    ∧ (ocStep OCEvent.streamEnd c).disconnectedEmits = c.disconnectedEmits + 1 := by
  refine ⟨?_, rfl, rfl⟩
  simpa [ocStarted] using ocRun_poll_emits es 0 hpoll

/-- C8 witness: a failing poll followed by a successful one emits exactly
once. -/
theorem c8_disconnect_emissions_witness :
    (ocRun [OCEvent.healthPollFail, OCEvent.healthPollOk] ocStarted).disconnectedEmits =
      (if OCEvent.healthPollFail ∈ [OCEvent.healthPollFail, OCEvent.healthPollOk]
        then 1 else 0)
    ∧ (ocStep OCEvent.processExit ocStarted).disconnectedEmits =
        ocStarted.disconnectedEmits + 1
    ∧ (ocStep OCEvent.streamEnd ocStarted).disconnectedEmits =
        ocStarted.disconnectedEmits + 1 :=
  c8_disconnect_emissions [OCEvent.healthPollFail, OCEvent.healthPollOk]
    (by decide) ocStarted

/-- C8 counterexample: one liveness loss detected first by the health poll
and then by the process-exit handler emits `disconnected` twice with no
intervening start, not exactly once. -/
theorem c8_counterexample :
    (ocRun [OCEvent.healthPollFail, OCEvent.processExit] ocStarted).disconnectedEmits = 2
    ∧ ¬((ocRun [OCEvent.healthPollFail, OCEvent.processExit]
        ocStarted).disconnectedEmits ≤ 1) := by
  decide

/-- C9: during a drain, a dequeued `feishu→opencode` entry whose chat has no
session mapping is discarded silently — the drain proceeds exactly as if the
entry had not been in the queue: no send attempt is recorded, nothing is
requeued, and no error is raised. -/
theorem c9_sessionless_entry_discarded (env : DrainEnv) (st : BridgeState)
    (m : PendingMessage) (rest : List PendingMessage)
    (hst : st.status = Status.connected) (hq : st.queue = m :: rest)
    (hdir : m.direction = Direction.feishuToOpencode)
    (hsid : lookupSessionFor st m = none) :
    processQueue env st = processQueue env { st with queue := rest } := by
  rw [processQueue_cons env st m rest hst hq]
  congr 1
  simp [drainNext, hdir, hsid]

/-- C9 witness: the discard equation at the concrete sessionless entry. -/
theorem c9_sessionless_entry_discarded_witness :
    processQueue envAllFail stC9 = processQueue envAllFail { stC9 with queue := [] } :=
  c9_sessionless_entry_discarded envAllFail stC9 mC9 [] rfl rfl rfl rfl

/-- C10: a falsy message identifier is never deduplicated —
`isDuplicateMessage` returns false and leaves the window untouched, the
handler leaves the window untouched, and (with session creation and sending
available) every such delivery results in one assistant send; the concrete
identifier-less message delivered twice is sent twice. -/
theorem c10_falsy_id_never_deduped (env : InboundEnv) (msg : FeishuMessage)
    (st : BridgeState) (sid : String)
    (hfalsy : truthy msg.messageId = false)
    (hcs : env.createSession = Except.ok sid)
    (hok : env.ocSendOk = true) :
    isDuplicateMessage msg.messageId st.processedMessageIds =
      (false, st.processedMessageIds)
    ∧ (handleFeishuToOpenCode env msg st).processedMessageIds =
        st.processedMessageIds
    ∧ (handleFeishuToOpenCode env msg st).ocSends.length = st.ocSends.length + 1
    ∧ (handleFeishuToOpenCode envInboundOk msgNoId
        (handleFeishuToOpenCode envInboundOk msgNoId st0)).ocSends.length = 2 := by
  have hdup : isDuplicateMessage msg.messageId st.processedMessageIds =
      (false, st.processedMessageIds) := by
    simp [isDuplicateMessage, hfalsy]
  have hbody : handleFeishuToOpenCode env msg st = handleFeishuBody env msg st := by
    simp [handleFeishuToOpenCode, hfalsy]
  by_cases hhas : mapHas st.sessions msg.chatId
  · obtain ⟨v, hv⟩ := mapGet_isSome_of_mapHas st.sessions msg.chatId hhas
    refine ⟨hdup, ?_, ?_, by decide⟩ <;>
      simp [hbody, handleFeishuBody, hhas, hv, sendToSession, hok]
  · have hv := mapGet_append_self st.sessions msg.chatId sid
      (by simpa using hhas)
    refine ⟨hdup, ?_, ?_, by decide⟩ <;>
      simp [hbody, handleFeishuBody, hhas, hcs, mapSet, sendToSession, hok, hv]

/-- C10 witness: the identifier-less message at the fresh bridge. -/
theorem c10_falsy_id_never_deduped_witness :
    isDuplicateMessage msgNoId.messageId st0.processedMessageIds =
      (false, st0.processedMessageIds)
    ∧ (handleFeishuToOpenCode envInboundOk msgNoId st0).processedMessageIds =
        st0.processedMessageIds
    ∧ (handleFeishuToOpenCode envInboundOk msgNoId st0).ocSends.length =
        st0.ocSends.length + 1
    ∧ (handleFeishuToOpenCode envInboundOk msgNoId
        (handleFeishuToOpenCode envInboundOk msgNoId st0)).ocSends.length = 2 :=
  c10_falsy_id_never_deduped envInboundOk msgNoId st0 "s1" rfl rfl rfl

end LarkBridge
